import Mathlib

/-!
Verification of the OCA data validator (`src/data_validator/mod.rs` and
`src/validator/mod.rs`) against its specification.

The Rust code is shallowly embedded: JSON values become an inductive type,
the schema attribute table becomes a list of attribute records (the
iteration order of the attribute map of the bundle), and the `as_str().unwrap()`
panic inside the entry-code checks is modelled by an `Option` layer where
`none` means the whole call aborts abnormally.
-/

set_option autoImplicit false

namespace OcaSdk

/-- JSON values as produced by serde_json, with numbers restricted to the
integer payloads the claims of the validator exercise (the validator only ever
asks a number for its shape, never its magnitude). -/
inductive Value where
  | null
  | bool (b : Bool)
  | number (n : Int)
  | string (s : String)
  | array (elems : List Value)
  | object (fields : List (String × Value))
deriving Repr

/-- Embeds `serde_json::Value::is_object`. -/
def Value.isObject : Value → Bool
  | .object _ => true
  | _ => false

/-- Embeds `serde_json::Value::is_array`. -/
def Value.isArray : Value → Bool
  | .array _ => true
  | _ => false

/-- Embeds `serde_json::Value::is_string`. -/
def Value.isString : Value → Bool
  | .string _ => true
  | _ => false

/-- Embeds `serde_json::Value::is_number`. -/
def Value.isNumber : Value → Bool
  | .number _ => true
  | _ => false

/-- Embeds `serde_json::Value::is_boolean`. -/
def Value.isBoolean : Value → Bool
  | .bool _ => true
  | _ => false

/-- Embeds `serde_json::Value::as_str`: `some` exactly on JSON strings. -/
def Value.asStr : Value → Option String
  | .string s => some s
  | _ => none

/-- Key lookup in the field list of an object, first match wins
(parsed JSON objects have unique keys). -/
def getField : List (String × Value) → String → Option Value
  | [], _ => none
  | (k, v) :: rest, name => if k = name then some v else getField rest name

/-- Embeds `serde_json::Value::get` with a string key: field lookup on objects,
`none` on every other shape. -/
def Value.get : Value → String → Option Value
  | .object fields, name => getField fields name
  | _, _ => none

/-- JSON string escaping as used by the serde `Display` instance on the string
payloads appearing in error messages (quote and backslash). -/
def escapeJson (s : String) : String :=
  s.foldl
    (fun acc c =>
      if c = '"' then acc ++ "\\\""
      else if c = '\\' then acc ++ "\\\\"
      else acc.push c)
    ""

mutual

/-- Compact JSON rendering, modelling the serde_json `Display` rendering used by the
`{}` placeholders of the validator `format!` strings. -/
def renderValue : Value → String
  | .null => "null"
  | .bool b => if b then "true" else "false"
  | .number n => toString n
  | .string s => "\"" ++ escapeJson s ++ "\""
  | .array elems => "[" ++ renderElems elems ++ "]"
  | .object fields => "\x7b" ++ renderFields fields ++ "\x7d"

/-- Comma-separated rendering of array elements. -/
def renderElems : List Value → String
  | [] => ""
  | [v] => renderValue v
  | v :: rest => renderValue v ++ "," ++ renderElems rest

/-- Comma-separated rendering of object fields. -/
def renderFields : List (String × Value) → String
  | [] => ""
  | [(k, v)] => "\"" ++ escapeJson k ++ "\":" ++ renderValue v
  | (k, v) :: rest =>
    "\"" ++ escapeJson k ++ "\":" ++ renderValue v ++ "," ++ renderFields rest

end

/-- Embeds `oca_ast_semantics::ast::AttributeType`. -/
inductive AttributeType where
  | Text
  | Numeric
  | DateTime
  | Boolean
  | Binary
deriving Repr, DecidableEq

/-- Embeds `oca_ast_semantics::ast::NestedAttrType`.  The validator `match`
handles `Value`, `Array` and `Null` and has a catch-all arm that the
`Reference` variant falls into. -/
inductive NestedAttrType where
  | Reference (said : String)
  | Value (t : AttributeType)
  | Array (t : NestedAttrType)
  | Null
deriving Repr

/-- Embeds `oca_bundle_semantics::state::entry_codes::EntryCodes`: a flat code
list, a grouped mapping, or a SAID reference to an external code table
(the catch-all arm of the validator). -/
inductive EntryCodes where
  | Sae (said : String)
  | Array (codes : List String)
  | Object (groups : List (String × List String))
deriving Repr

/-- The fields of `oca_bundle_semantics::state::attribute::Attribute`
that the validator reads. -/
structure Attribute where
  name : String
  attribute_type : Option NestedAttrType
  conformance : Option String
  entry_codes : Option EntryCodes
deriving Repr

/-- Embeds `DataValidationStatus` from `src/data_validator/mod.rs`. -/
inductive DataValidationStatus where
  | Valid
  | Invalid (errors : List String)
deriving Repr

/-- Embeds `format!("Attribute \"{}\" value is mandatory", attribute.name)`. -/
def mandatoryMsg (a : Attribute) : String :=
  "Attribute \"" ++ a.name ++ "\" value is mandatory"

/-- Embeds `format!("Attribute \"{}\" value ({}) is not a string", ...)`. -/
def notAStringMsg (a : Attribute) (v : Value) : String :=
  "Attribute \"" ++ a.name ++ "\" value (" ++ renderValue v ++ ") is not a string"

/-- Embeds `format!("Attribute \"{}\" value ({}) is not a number", ...)`. -/
def notANumberMsg (a : Attribute) (v : Value) : String :=
  "Attribute \"" ++ a.name ++ "\" value (" ++ renderValue v ++ ") is not a number"

/-- Embeds `format!("Attribute \"{}\" value ({}) is not a boolean", ...)`. -/
def notABooleanMsg (a : Attribute) (v : Value) : String :=
  "Attribute \"" ++ a.name ++ "\" value (" ++ renderValue v ++ ") is not a boolean"

/-- Embeds `format!("Attribute \"{}\" value ({}) is not an array", ...)`. -/
def notAnArrayMsg (a : Attribute) (v : Value) : String :=
  "Attribute \"" ++ a.name ++ "\" value (" ++ renderValue v ++ ") is not an array"

/-- Embeds `format!("Attribute \"{}\" value ({}) is not in entry codes", ...)`. -/
def notInEntryCodesMsg (a : Attribute) (v : Value) : String :=
  "Attribute \"" ++ a.name ++ "\" value (" ++ renderValue v ++ ") is not in entry codes"

/-- The `if let Some(nested_attribute_type) = &attr.attribute_type`
block of `validate_attribute` (lines 95-150): the errors it pushes for a
value that survived the array/object early return. -/
def typeCheckErrors (attr : Attribute) (v : Value) : List String :=
  match attr.attribute_type with
  | none => []
  | some nestedAttributeType =>
    match nestedAttributeType with
    | NestedAttrType.Value attributeType =>
      match attributeType with
      | AttributeType.Text =>
        if v.isString = false then [notAStringMsg attr v] else []
      | AttributeType.Numeric =>
        if v.isNumber = false then [notANumberMsg attr v] else []
      | AttributeType.DateTime =>
        if v.isString = false then [notAStringMsg attr v] else []
      | AttributeType.Boolean =>
        if v.isBoolean = false then [notABooleanMsg attr v] else []
      | AttributeType.Binary =>
        if v.isString = false then [notAStringMsg attr v] else []
    | NestedAttrType.Array _ =>
      if v.isArray = false then [notAnArrayMsg attr v] else []
    | NestedAttrType.Null => []
    | NestedAttrType.Reference _ => []

/-- Embeds `codes.values().any(|c| c.contains(&v.as_str().unwrap().to_string()))`:
The Rust `any` is short-circuiting and the `unwrap` sits inside the closure,
so with an empty group map the unwrap never runs.  `none` models the panic
on a non-string value once a group is inspected. -/
def groupsAnyContains : List (String × List String) → Value → Option Bool
  | [], _ => some false
  | group :: rest, v =>
    match v.asStr with
    | none => none
    | some s =>
      if group.2.contains s then some true else groupsAnyContains rest v

/-- The `if let Some(entry_codes) = &attr.entry_codes` block of
`validate_attribute` (lines 152-175).  `none` models the
`v.as_str().unwrap()` panic aborting the call; `some errs` is the list of
errors the block pushes. -/
def entryCodeCheckErrors (attr : Attribute) (v : Value) : Option (List String) :=
  match attr.entry_codes with
  | none => some []
  | some entryCodes =>
    match entryCodes with
    | EntryCodes.Array codes =>
      match v.asStr with
      | none => none
      | some s =>
        if codes.contains s = false then some [notInEntryCodesMsg attr v]
        else some []
    | EntryCodes.Object groups =>
      match groupsAnyContains groups v with
      | none => none
      | some found =>
        if found = false then some [notInEntryCodesMsg attr v]
        else some []
    | EntryCodes.Sae _ => some []

/-- Embeds `validate_attribute` from `src/data_validator/mod.rs` (the copy in
`src/validator/mod.rs` is textually identical).  `none` models a panic of
the entry-code `unwrap`; a panic discards the type errors already pushed,
exactly as Rust unwinding discards the local `errors` vector. -/
def validate_attribute (attr : Attribute) (value : Option Value) :
    Option (List String) :=
  match value with
  | none =>
    if attr.conformance = some "M" then some [mandatoryMsg attr]
    else some []
  | some v =>
    if v.isArray || v.isObject then some []
    else
      match entryCodeCheckErrors attr v with
      | none => none
      | some entryErrors => some (typeCheckErrors attr v ++ entryErrors)

/-- The attribute loop shared by `validate_data` and `validate`: errors are
extended in iteration order over the attribute table, and a panic anywhere
aborts the whole call. -/
def validateAll (attrs : List Attribute) (data : Value) : Option (List String) :=
  match attrs with
  | [] => some []
  | attr :: rest =>
    match validate_attribute attr (data.get attr.name) with
    | none => none
    | some attributeErrors =>
      match validateAll rest data with
      | none => none
      | some restErrors => some (attributeErrors ++ restErrors)

/-- Embeds `validate_data` from `src/data_validator/mod.rs`, with the bundle
replaced by its resolved attribute table (the `OCABox` attribute values in
iteration order).  The outer `Option` is the panic channel; the `Except`
carries the Rust `Result`. -/
def validate_data (attrs : List Attribute) (data : Value) :
    Option (Except String DataValidationStatus) :=
  if data.isObject = false then some (Except.error "Data is not an object")
  else
    match validateAll attrs data with
    | none => none
    | some errors =>
      if errors.isEmpty then some (Except.ok DataValidationStatus.Valid)
      else some (Except.ok (DataValidationStatus.Invalid errors))

/-- Embeds `validate` from `src/validator/mod.rs`.  the serde_json parser is an
external collaborator, so the function takes the parse outcome as input:
`Except.error e` is a parse failure with message `e`, `Except.ok d` a
successfully parsed document. -/
def validate (attrs : List Attribute) (parsed : Except String Value) :
    Option (Except String (List String)) :=
  match parsed with
  | Except.error e => some (Except.error ("Failed to parse data: " ++ e))
  | Except.ok d =>
    if d.isObject = false then some (Except.error "Data is not an object")
    else
      match validateAll attrs d with
      | none => none
      | some errors => some (Except.ok errors)

end OcaSdk

namespace OcaSdk

/-- Spec-side predicate (wording of P1): a scalar value matches a declared
scalar kind — Text, DateTime and Binary want a JSON string, Numeric a JSON
number, Boolean a JSON boolean. -/
def scalarKindOk (k : AttributeType) (v : Value) : Bool :=
  match k with
  | AttributeType.Text => v.isString
  | AttributeType.Numeric => v.isNumber
  | AttributeType.DateTime => v.isString
  | AttributeType.Boolean => v.isBoolean
  | AttributeType.Binary => v.isString

/-- Spec-side predicate (wording of P1): a value satisfies its declared
scalar type; type specs that are not scalar kinds impose no scalar-type
requirement. -/
def scalarTypeOk (t : Option NestedAttrType) (v : Value) : Bool :=
  match t with
  | some (NestedAttrType.Value k) => scalarKindOk k v
  | _ => true

/-- Spec-side predicate (wording of P1): a value satisfies its entry-code
constraint — member of a flat list, member of some group of a grouped
mapping (union membership); the reference variant and an absent constraint
are always satisfied.  A non-string value is a member of nothing. -/
def entryCodesOk (ec : Option EntryCodes) (v : Value) : Bool :=
  match ec with
  | some (EntryCodes.Array codes) =>
    match v.asStr with
    | some s => codes.contains s
    | none => false
  | some (EntryCodes.Object groups) =>
    match v.asStr with
    | some s => groups.any fun g => g.2.contains s
    | none => false
  | _ => true

/-- Spec-side predicate (wording of P2): the type rule is violated by a
value — a declared scalar kind not matched, or a declared array type whose
value is not an array. -/
def typeViolated (a : Attribute) (v : Value) : Bool :=
  match a.attribute_type with
  | some (NestedAttrType.Value k) => !(scalarKindOk k v)
  | some (NestedAttrType.Array _) => !v.isArray
  | _ => false

/-- Spec-side predicate (wording of P2): the entry-code rule is violated by
a value — not a member of the flat list or of any group.  A non-string
value is a member of nothing, hence violates any present flat or grouped
constraint. -/
def entryViolated (a : Attribute) (v : Value) : Bool :=
  match a.entry_codes with
  | some (EntryCodes.Array codes) =>
    match v.asStr with
    | some s => !(codes.contains s)
    | none => true
  | some (EntryCodes.Object groups) =>
    match v.asStr with
    | some s => !(groups.any fun g => g.2.contains s)
    | none => true
  | _ => false

/-- On a string value, the grouped membership loop computes exactly the
`any`-over-groups union membership, with no panic. -/
lemma groupsAnyContains_eq_any (groups : List (String × List String)) (v : Value)
    (s : String) (hs : v.asStr = some s) :
    groupsAnyContains groups v = some (groups.any fun g => g.2.contains s) := by
  induction groups with
  | nil => simp [groupsAnyContains]
  | cons g rest ih =>
    simp only [groupsAnyContains, hs]
    by_cases h : g.2.contains s = true
    · rw [if_pos h, List.any_cons, h]
      simp
    · rw [if_neg h, ih, List.any_cons]
      rw [Bool.not_eq_true] at h
      rw [h]
      simp

/-- If the type-check block pushed no error, the value satisfies its
declared scalar type. -/
lemma scalarTypeOk_of_typeCheckErrors_nil (a : Attribute) (v : Value)
    (h : typeCheckErrors a v = []) : scalarTypeOk a.attribute_type v = true := by
  cases ht : a.attribute_type with
  | none => simp [scalarTypeOk, ht]
  | some n =>
    cases n with
    | Reference said => simp [scalarTypeOk, ht]
    | Null => simp [scalarTypeOk, ht]
    | Array t => simp [scalarTypeOk, ht]
    | Value k =>
      simp only [typeCheckErrors, ht] at h
      simp only [scalarTypeOk, ht]
      cases k <;> (simp only [scalarKindOk]; split at h <;> simp_all)

/-- The type-check block pushes exactly one error when the type rule is
violated and none otherwise. -/
lemma typeCheckErrors_length (a : Attribute) (v : Value) :
    (typeCheckErrors a v).length = if typeViolated a v = true then 1 else 0 := by
  cases ht : a.attribute_type with
  | none => simp [typeCheckErrors, typeViolated, ht]
  | some n =>
    cases n with
    | Reference said => simp [typeCheckErrors, typeViolated, ht]
    | Null => simp [typeCheckErrors, typeViolated, ht]
    | Array t =>
      simp only [typeCheckErrors, typeViolated, ht]
      by_cases hv : v.isArray = true <;> simp [hv]
    | Value k =>
      simp only [typeCheckErrors, typeViolated, ht]
      cases k with
      | Text => by_cases hv : v.isString = true <;> simp [scalarKindOk, hv]
      | Numeric => by_cases hv : v.isNumber = true <;> simp [scalarKindOk, hv]
      | DateTime => by_cases hv : v.isString = true <;> simp [scalarKindOk, hv]
      | Boolean => by_cases hv : v.isBoolean = true <;> simp [scalarKindOk, hv]
      | Binary => by_cases hv : v.isString = true <;> simp [scalarKindOk, hv]

/-- If the entry-code block finished normally, it pushed exactly one error
when the entry-code rule is violated and none otherwise. -/
lemma entryCodeCheckErrors_length (a : Attribute) (v : Value) (es : List String)
    (h : entryCodeCheckErrors a v = some es) :
    es.length = if entryViolated a v = true then 1 else 0 := by
  cases hec : a.entry_codes with
  | none =>
    simp only [entryCodeCheckErrors, hec] at h
    cases h
    simp [entryViolated, hec]
  | some ec =>
    cases ec with
    | Sae said =>
      simp only [entryCodeCheckErrors, hec] at h
      cases h
      simp [entryViolated, hec]
    | Array codes =>
      cases hs : v.asStr with
      | none =>
        simp only [entryCodeCheckErrors, hec, hs] at h
        exact absurd h (by simp)
      | some s =>
        simp only [entryCodeCheckErrors, hec, hs] at h
        simp only [entryViolated, hec, hs]
        by_cases hc : codes.contains s = true
        · rw [hc] at h ⊢
          simp at h
          subst h
          simp
        · rw [Bool.not_eq_true] at hc
          rw [hc] at h ⊢
          simp at h
          subst h
          simp
    | Object groups =>
      simp only [entryCodeCheckErrors, hec] at h
      cases hs : v.asStr with
      | none =>
        cases groups with
        | nil =>
          simp only [groupsAnyContains] at h
          simp only [entryViolated, hec, hs]
          simp at h
          subst h
          simp
        | cons g rest =>
          simp only [groupsAnyContains, hs] at h
          exact absurd h (by simp)
      | some s =>
        rw [groupsAnyContains_eq_any groups v s hs] at h
        simp only [entryViolated, hec, hs]
        by_cases hg : (groups.any fun g => g.2.contains s) = true
        · rw [hg] at h ⊢
          simp at h
          subst h
          simp
        · rw [Bool.not_eq_true] at hg
          rw [hg] at h ⊢
          simp at h
          subst h
          simp

end OcaSdk

namespace OcaSdk

/-- The entry-code satisfaction predicate is the negation of the
entry-code violation predicate. -/
lemma entryCodesOk_eq_not_entryViolated (a : Attribute) (v : Value) :
    entryCodesOk a.entry_codes v = !entryViolated a v := by
  cases hec : a.entry_codes with
  | none => simp [entryCodesOk, entryViolated, hec]
  | some ec =>
    cases ec with
    | Sae said => simp [entryCodesOk, entryViolated, hec]
    | Array codes =>
      cases hs : v.asStr <;> simp [entryCodesOk, entryViolated, hec, hs]
    | Object groups =>
      cases hs : v.asStr <;> simp [entryCodesOk, entryViolated, hec, hs]

/-- If the entry-code block finished normally with no error, the value
satisfies its entry-code constraint. -/
lemma entryCodesOk_of_entryCodeCheckErrors_nil (a : Attribute) (v : Value)
    (h : entryCodeCheckErrors a v = some []) :
    entryCodesOk a.entry_codes v = true := by
  have hl := entryCodeCheckErrors_length a v [] h
  rw [entryCodesOk_eq_not_entryViolated]
  by_cases hv : entryViolated a v = true
  · rw [hv] at hl
    simp at hl
  · rw [Bool.not_eq_true] at hv
    rw [hv]
    rfl

/-- If the whole attribute loop finished with no error, the validation of every single attribute finished with no error. -/
lemma validateAll_nil_forall (attrs : List Attribute) (data : Value)
    (h : validateAll attrs data = some []) :
    ∀ a ∈ attrs, validate_attribute a (data.get a.name) = some [] := by
  induction attrs with
  | nil => intro a ha; exact absurd ha (List.not_mem_nil a)
  | cons attr rest ih =>
    intro a ha
    simp only [validateAll] at h
    cases h1 : validate_attribute attr (data.get attr.name) with
    | none => rw [h1] at h; exact absurd h (by simp)
    | some es =>
      rw [h1] at h
      cases h2 : validateAll rest data with
      | none => rw [h2] at h; exact absurd h (by simp)
      | some restErrors =>
        rw [h2] at h
        simp at h
        obtain ⟨he, hr⟩ := h
        rcases List.mem_cons.mp ha with hae | har
        · subst hae
          rw [he] at h1
          exact h1
        · exact ih (by rw [h2, hr]) a har

/-- Lemma: `validate_data` can only return `Err` on non-object data, and
then only with the one setup message. -/
lemma validate_data_error_elim (attrs : List Attribute) (data : Value)
    (e : String) (h : validate_data attrs data = some (Except.error e)) :
    data.isObject = false ∧ e = "Data is not an object" := by
  by_cases ho : data.isObject = false
  · simp only [validate_data, ho, if_pos] at h
    simp at h
    exact ⟨ho, h.symm⟩
  · simp only [validate_data, if_neg ho] at h
    cases hv : validateAll attrs data with
    | none => rw [hv] at h; exact absurd h (by simp)
    | some errors =>
      rw [hv] at h
      by_cases hne : errors.isEmpty = true <;> simp [hne] at h

/-- On object data, `validate_data` reduces to a status decided by the error
list of the attribute loop. -/
lemma validate_data_eq_of_validateAll (attrs : List Attribute) (data : Value)
    (errors : List String) (ho : data.isObject = true)
    (hv : validateAll attrs data = some errors) :
    validate_data attrs data =
      if errors.isEmpty = true then some (Except.ok DataValidationStatus.Valid)
      else some (Except.ok (DataValidationStatus.Invalid errors)) := by
  simp [validate_data, ho, hv]

/-- On object data, a panic in the attribute loop aborts `validate_data`. -/
lemma validate_data_eq_none_of_validateAll_none (attrs : List Attribute)
    (data : Value) (ho : data.isObject = true)
    (hv : validateAll attrs data = none) :
    validate_data attrs data = none := by
  simp [validate_data, ho, hv]

/-- On object data every normally-returned result of `validate_data` is an
`Ok`. -/
lemma validate_data_ok_elim (attrs : List Attribute) (data : Value)
    (r : Except String DataValidationStatus) (ho : data.isObject = true)
    (h : validate_data attrs data = some r) :
    ∃ st, r = Except.ok st := by
  cases hv : validateAll attrs data with
  | none =>
    rw [validate_data_eq_none_of_validateAll_none attrs data ho hv] at h
    exact absurd h (by simp)
  | some errors =>
    rw [validate_data_eq_of_validateAll attrs data errors ho hv] at h
    by_cases hne : errors.isEmpty = true
    · rw [if_pos hne] at h
      exact ⟨DataValidationStatus.Valid, (Option.some.inj h).symm⟩
    · rw [if_neg hne] at h
      exact ⟨DataValidationStatus.Invalid errors, (Option.some.inj h).symm⟩

/-- A `Valid` outcome means the data was an object and the attribute loop
finished with no error at all. -/
lemma validate_data_valid_elim (attrs : List Attribute) (data : Value)
    (h : validate_data attrs data = some (Except.ok DataValidationStatus.Valid)) :
    data.isObject = true ∧ validateAll attrs data = some [] := by
  by_cases ho : data.isObject = false
  · simp [validate_data, ho] at h
  · rw [Bool.not_eq_false] at ho
    refine ⟨ho, ?_⟩
    cases hv : validateAll attrs data with
    | none =>
      rw [validate_data_eq_none_of_validateAll_none attrs data ho hv] at h
      exact absurd h (by simp)
    | some errors =>
      rw [validate_data_eq_of_validateAll attrs data errors ho hv] at h
      by_cases hne : errors.isEmpty = true
      · rw [List.isEmpty_iff] at hne
        rw [hne]
      · rw [if_neg hne] at h
        simp at h

end OcaSdk

namespace OcaSdk

/-- C2: for every attribute and every data payload, if the data value of the
attribute is present and is a JSON array or a JSON object, validation of
that attribute produces zero errors, regardless of its
declared type and entry-code constraint. -/
theorem C2_array_object_bypass (a : Attribute) (v : Value)
    (h : v.isArray = true ∨ v.isObject = true) :
    validate_attribute a (some v) = some [] := by
  simp only [validate_attribute]
  rcases h with h | h <;> simp [h]

/-- Witness for C2 at a concrete input: an array value under a Mandatory
Text attribute with entry codes still yields zero errors. -/
theorem C2_array_object_bypass_witness :
    validate_attribute
      ⟨"tags", some (NestedAttrType.Value AttributeType.Text), some "M",
        some (EntryCodes.Array ["x"])⟩
      (some (Value.array [Value.number 1])) = some [] :=
  C2_array_object_bypass _ _ (Or.inl rfl)

/-- C3: for some attribute with an entry-code constraint (flat or grouped)
and some present scalar non-string value, the entry-code check aborts the
whole call via the unchecked string coercion (modelled as `none`) instead
of producing a clean per-attribute validation error. -/
theorem C3_entry_code_panic :
    validate_attribute
      ⟨"color", none, none, some (EntryCodes.Array ["red", "green"])⟩
      (some (Value.number 7)) = none
    ∧ validate_attribute
      ⟨"sel", none, none, some (EntryCodes.Object [("g1", ["a"])])⟩
      (some (Value.bool true)) = none
    ∧ validate_data
      [⟨"color", none, none, some (EntryCodes.Array ["red", "green"])⟩]
      (Value.object [("color", Value.number 7)]) = none :=
  ⟨rfl, rfl, rfl⟩

/-- C5: for every attribute whose name is absent from the data, exactly
one missing-mandatory error is emitted when conformance is the literal
marker "M", and zero errors otherwise (absent or any other value). -/
theorem C5_absent_attribute (a : Attribute) :
    validate_attribute a none =
      some (if a.conformance = some "M" then [mandatoryMsg a] else []) := by
  simp only [validate_attribute]
  by_cases h : a.conformance = some "M" <;> simp [h]

end OcaSdk

namespace OcaSdk

/-- C6: for a declared scalar type and a present value, Text, DateTime and
Binary emit a type error exactly when the value is not a JSON string;
Numeric exactly when it is not a JSON number; Boolean exactly when it is
not a JSON boolean; a Null or absent type spec emits no type error. -/
theorem C6_scalar_type_checks (a : Attribute) (v : Value) :
    (a.attribute_type = some (NestedAttrType.Value AttributeType.Text) →
      typeCheckErrors a v =
        if v.isString = true then [] else [notAStringMsg a v])
    ∧ (a.attribute_type = some (NestedAttrType.Value AttributeType.DateTime) →
      typeCheckErrors a v =
        if v.isString = true then [] else [notAStringMsg a v])
    ∧ (a.attribute_type = some (NestedAttrType.Value AttributeType.Binary) →
      typeCheckErrors a v =
        if v.isString = true then [] else [notAStringMsg a v])
    ∧ (a.attribute_type = some (NestedAttrType.Value AttributeType.Numeric) →
      typeCheckErrors a v =
        if v.isNumber = true then [] else [notANumberMsg a v])
    ∧ (a.attribute_type = some (NestedAttrType.Value AttributeType.Boolean) →
      typeCheckErrors a v =
        if v.isBoolean = true then [] else [notABooleanMsg a v])
    ∧ (a.attribute_type = some NestedAttrType.Null → typeCheckErrors a v = [])
    ∧ (a.attribute_type = none → typeCheckErrors a v = []) := by
  refine ⟨?_, ?_, ?_, ?_, ?_, ?_, ?_⟩ <;> intro ht <;>
    simp only [typeCheckErrors, ht]
  · by_cases hv : v.isString = true
    · simp [hv]
    · rw [Bool.not_eq_true] at hv
      simp [hv]
  · by_cases hv : v.isString = true
    · simp [hv]
    · rw [Bool.not_eq_true] at hv
      simp [hv]
  · by_cases hv : v.isString = true
    · simp [hv]
    · rw [Bool.not_eq_true] at hv
      simp [hv]
  · by_cases hv : v.isNumber = true
    · simp [hv]
    · rw [Bool.not_eq_true] at hv
      simp [hv]
  · by_cases hv : v.isBoolean = true
    · simp [hv]
    · rw [Bool.not_eq_true] at hv
      simp [hv]

/-- Witness for C6: a Text attribute with a numeric value gets exactly the
not-a-string error; scenario B of the spec. -/
theorem C6_scalar_type_checks_witness :
    typeCheckErrors
      ⟨"name", some (NestedAttrType.Value AttributeType.Text), none, none⟩
      (Value.number 42) =
      [notAStringMsg
        ⟨"name", some (NestedAttrType.Value AttributeType.Text), none, none⟩
        (Value.number 42)] := by
  have h := (C6_scalar_type_checks
    ⟨"name", some (NestedAttrType.Value AttributeType.Text), none, none⟩
    (Value.number 42)).1 rfl
  simpa using h

/-- C7: for an attribute with an entry-code constraint and a present JSON
string value, a flat list passes exactly on membership, a grouped mapping
passes exactly on union membership across all groups, and a failing check
emits exactly the one entry-code error. -/
theorem C7_entry_code_membership (a : Attribute) (s : String) :
    (∀ codes, a.entry_codes = some (EntryCodes.Array codes) →
      entryCodeCheckErrors a (Value.string s) =
        some (if codes.contains s = true then []
          else [notInEntryCodesMsg a (Value.string s)]))
    ∧ (∀ groups, a.entry_codes = some (EntryCodes.Object groups) →
      entryCodeCheckErrors a (Value.string s) =
        some (if (groups.any fun g => g.2.contains s) = true then []
          else [notInEntryCodesMsg a (Value.string s)])) := by
  constructor
  · intro codes hec
    simp only [entryCodeCheckErrors, hec, Value.asStr]
    by_cases hc : codes.contains s = true
    · rw [hc]
      simp
    · rw [Bool.not_eq_true] at hc
      rw [hc]
      simp
  · intro groups hec
    simp only [entryCodeCheckErrors, hec]
    rw [groupsAnyContains_eq_any groups (Value.string s) s rfl]
    by_cases hg : (groups.any fun g => g.2.contains s) = true
    · rw [hg]
      simp
    · rw [Bool.not_eq_true] at hg
      rw [hg]
      simp

/-- Witness for C7: scenario C (flat membership passes on "red") and
scenario D (grouped union membership passes on "c" from the second
group). -/
theorem C7_entry_code_membership_witness :
    entryCodeCheckErrors
      ⟨"color", none, none, some (EntryCodes.Array ["red", "green"])⟩
      (Value.string "red") = some []
    ∧ entryCodeCheckErrors
      ⟨"category", none, none,
        some (EntryCodes.Object [("g1", ["a", "b"]), ("g2", ["c"])])⟩
      (Value.string "c") = some [] := by
  constructor
  · have h := (C7_entry_code_membership
      ⟨"color", none, none, some (EntryCodes.Array ["red", "green"])⟩
      "red").1 ["red", "green"] rfl
    exact h.trans (by decide)
  · have h := (C7_entry_code_membership
      ⟨"category", none, none,
        some (EntryCodes.Object [("g1", ["a", "b"]), ("g2", ["c"])])⟩
      "c").2 [("g1", ["a", "b"]), ("g2", ["c"])] rfl
    exact h.trans (by decide)

/-- C8: for a present scalar value whose validation finishes normally, the
number of errors for the attribute equals the number of violated rules —
one per violated type rule plus one per violated entry-code rule, with no
deduplication or short-circuiting. -/
theorem C8_error_count (a : Attribute) (v : Value) (es : List String)
    (hs : v.isArray = false) (ho : v.isObject = false)
    (h : validate_attribute a (some v) = some es) :
    es.length = (if typeViolated a v = true then 1 else 0)
      + (if entryViolated a v = true then 1 else 0) := by
  have hcond : (v.isArray || v.isObject) = false := by
    rw [hs, ho]
    rfl
  simp only [validate_attribute, hcond] at h
  cases he : entryCodeCheckErrors a v with
  | none =>
    rw [he] at h
    simp at h
  | some ee =>
    rw [he] at h
    simp at h
    rw [← h, List.length_append, typeCheckErrors_length a v,
      entryCodeCheckErrors_length a v ee he]

/-- Witness for C8: the crafted case — a Numeric attribute with flat entry
codes and the string value "blue" contributes a type error and an
entry-code error in the same call, and the count matches the two violated
rules. -/
theorem C8_error_count_witness :
    validate_attribute
      ⟨"num", some (NestedAttrType.Value AttributeType.Numeric), none,
        some (EntryCodes.Array ["red"])⟩
      (some (Value.string "blue")) =
      some [notANumberMsg
          ⟨"num", some (NestedAttrType.Value AttributeType.Numeric), none,
            some (EntryCodes.Array ["red"])⟩ (Value.string "blue"),
        notInEntryCodesMsg
          ⟨"num", some (NestedAttrType.Value AttributeType.Numeric), none,
            some (EntryCodes.Array ["red"])⟩ (Value.string "blue")]
    ∧ [notANumberMsg
          ⟨"num", some (NestedAttrType.Value AttributeType.Numeric), none,
            some (EntryCodes.Array ["red"])⟩ (Value.string "blue"),
        notInEntryCodesMsg
          ⟨"num", some (NestedAttrType.Value AttributeType.Numeric), none,
            some (EntryCodes.Array ["red"])⟩ (Value.string "blue")].length =
      (if typeViolated
          ⟨"num", some (NestedAttrType.Value AttributeType.Numeric), none,
            some (EntryCodes.Array ["red"])⟩ (Value.string "blue") = true
        then 1 else 0)
      + (if entryViolated
          ⟨"num", some (NestedAttrType.Value AttributeType.Numeric), none,
            some (EntryCodes.Array ["red"])⟩ (Value.string "blue") = true
        then 1 else 0) :=
  ⟨rfl, C8_error_count _ _ _ rfl rfl rfl⟩

end OcaSdk

namespace OcaSdk

/-- On parsed object data every normally-returned result of the text entry
point `validate` is an `Ok` carrying the error list. -/
lemma validate_ok_elim (attrs : List Attribute) (d : Value)
    (r : Except String (List String)) (ho : d.isObject = true)
    (h : validate attrs (Except.ok d) = some r) :
    ∃ errs, r = Except.ok errs := by
  cases hv : validateAll attrs d with
  | none =>
    have hn : validate attrs (Except.ok d) = none := by
      simp [validate, ho, hv]
    rw [hn] at h
    exact absurd h (by simp)
  | some errors =>
    have he : validate attrs (Except.ok d) = some (Except.ok errors) := by
      simp [validate, ho, hv]
    rw [he] at h
    exact ⟨errors, (Option.some.inj h).symm⟩

/-- C1 (P1, soundness): whenever `validate_data` returns `Ok(Valid)`,
every attribute with Mandatory conformance has a key present in the data,
and every attribute whose present value is a scalar satisfies its declared
scalar type and its entry-code constraint. -/
theorem C1_soundness (attrs : List Attribute) (data : Value)
    (h : validate_data attrs data = some (Except.ok DataValidationStatus.Valid)) :
    ∀ a ∈ attrs,
      (a.conformance = some "M" → (data.get a.name).isSome = true)
      ∧ (∀ v, data.get a.name = some v → v.isArray = false →
          v.isObject = false →
          scalarTypeOk a.attribute_type v = true
          ∧ entryCodesOk a.entry_codes v = true) := by
  obtain ⟨ho, hall⟩ := validate_data_valid_elim attrs data h
  intro a ha
  have hva := validateAll_nil_forall attrs data hall a ha
  constructor
  · intro hM
    cases hg : data.get a.name with
    | none =>
      rw [hg] at hva
      simp [validate_attribute, hM] at hva
    | some w => simp [hg]
  · intro v hgv hvarr hvobj
    rw [hgv] at hva
    have hcond : (v.isArray || v.isObject) = false := by
      rw [hvarr, hvobj]
      rfl
    simp only [validate_attribute, hcond] at hva
    cases he : entryCodeCheckErrors a v with
    | none =>
      rw [he] at hva
      simp at hva
    | some ee =>
      rw [he] at hva
      simp at hva
      obtain ⟨ht, hee⟩ := hva
      refine ⟨scalarTypeOk_of_typeCheckErrors_nil a v ht, ?_⟩
      refine entryCodesOk_of_entryCodeCheckErrors_nil a v ?_
      rw [he, hee]

/-- Witness for C1: a Mandatory Numeric attribute with a matching numeric
value validates as `Valid`, and the soundness conclusions follow. -/
theorem C1_soundness_witness :
    validate_data
      [⟨"age", some (NestedAttrType.Value AttributeType.Numeric), some "M", none⟩]
      (Value.object [("age", Value.number 5)]) =
      some (Except.ok DataValidationStatus.Valid)
    ∧ ∀ a ∈ [(⟨"age", some (NestedAttrType.Value AttributeType.Numeric),
        some "M", none⟩ : Attribute)],
      (a.conformance = some "M" →
        ((Value.object [("age", Value.number 5)]).get a.name).isSome = true)
      ∧ (∀ v, (Value.object [("age", Value.number 5)]).get a.name = some v →
          v.isArray = false → v.isObject = false →
          scalarTypeOk a.attribute_type v = true
          ∧ entryCodesOk a.entry_codes v = true) :=
  ⟨rfl, C1_soundness _ _ rfl⟩

end OcaSdk

namespace OcaSdk

/-- C4 counterexample: data that IS a JSON object on which `validate_data`
returns neither `Err` nor `Ok` — the entry-code coercion panic aborts the
call (`none`), so "in every other case the result is Ok" fails. -/
theorem C4_counterexample_panic_not_ok :
    (Value.object [("c", Value.number 1)]).isObject = true
    ∧ validate_data [⟨"c", none, none, some (EntryCodes.Array ["red"])⟩]
        (Value.object [("c", Value.number 1)]) = none :=
  ⟨rfl, rfl⟩

/-- C4 amended: `validate_data` returns `Err` exactly when the data is not
a JSON object; `validate` additionally returns `Err` when the text fails
to parse; in every other case where the call returns at all (no entry-code
coercion panic), the result is `Ok` with the per-attribute error list. -/
theorem C4_amended_setup_errors (attrs : List Attribute) (data : Value)
    (parsed : Except String Value) :
    ((∃ e, validate_data attrs data = some (Except.error e)) ↔
      data.isObject = false)
    ∧ (∀ r, data.isObject = true → validate_data attrs data = some r →
        ∃ st, r = Except.ok st)
    ∧ (∀ e, parsed = Except.error e →
        validate attrs parsed =
          some (Except.error ("Failed to parse data: " ++ e)))
    ∧ (∀ d, parsed = Except.ok d → d.isObject = false →
        validate attrs parsed = some (Except.error "Data is not an object"))
    ∧ (∀ d r, parsed = Except.ok d → d.isObject = true →
        validate attrs parsed = some r → ∃ errs, r = Except.ok errs) := by
  refine ⟨⟨?_, ?_⟩, ?_, ?_, ?_, ?_⟩
  · rintro ⟨e, he⟩
    exact (validate_data_error_elim attrs data e he).1
  · intro ho
    exact ⟨"Data is not an object", by simp [validate_data, ho]⟩
  · intro r ho hr
    exact validate_data_ok_elim attrs data r ho hr
  · intro e he
    rw [he]
    rfl
  · intro d hd hdo
    rw [hd]
    simp [validate, hdo]
  · intro d r hd hdo hr
    rw [hd] at hr
    exact validate_ok_elim attrs d r hdo hr

/-- Witness for the amended statement of C4 at concrete inputs: a parse failure
surfaces as `Err`, non-object data surfaces as `Err`, and on non-object
data the `Err` existence is equivalent to non-objectness. -/
theorem C4_amended_setup_errors_witness :
    validate [⟨"x", none, some "M", none⟩] (Except.error "oops") =
      some (Except.error ("Failed to parse data: " ++ "oops"))
    ∧ validate [⟨"x", none, some "M", none⟩] (Except.ok (Value.array [])) =
      some (Except.error "Data is not an object")
    ∧ ((∃ e, validate_data [⟨"x", none, some "M", none⟩] (Value.array []) =
        some (Except.error e)) ↔ (Value.array []).isObject = false) := by
  refine ⟨?_, ?_, ?_⟩
  · exact (C4_amended_setup_errors [⟨"x", none, some "M", none⟩]
      (Value.array []) (Except.error "oops")).2.2.1 "oops" rfl
  · exact (C4_amended_setup_errors [⟨"x", none, some "M", none⟩]
      (Value.array []) (Except.ok (Value.array []))).2.2.2.1
      (Value.array []) rfl rfl
  · exact (C4_amended_setup_errors [⟨"x", none, some "M", none⟩]
      (Value.array []) (Except.error "oops")).1

/-- C10 counterexample: an attribute with an entry-code constraint (the
grouped variant with an empty group map) whose data value is JSON null
does NOT trigger the abnormal non-string failure — the call returns a
clean not-in-entry-codes error instead of aborting. -/
theorem C10_counterexample_empty_groups_no_panic :
    validate_attribute ⟨"sel", none, some "M", some (EntryCodes.Object [])⟩
        (some Value.null) =
      some [notInEntryCodesMsg
        ⟨"sel", none, some "M", some (EntryCodes.Object [])⟩ Value.null]
    ∧ validate_attribute ⟨"sel", none, some "M", some (EntryCodes.Object [])⟩
        (some Value.null) ≠ none :=
  ⟨rfl, by decide⟩

/-- C10 amended: a JSON null value is treated as present (no
missing-mandatory error even under "M"), is classified as a scalar (no
array/object bypass), fails every declared scalar type check, and with a
flat entry-code constraint — or a grouped one having at least one group —
triggers the abnormal non-string failure; a grouped constraint with an
empty group map instead yields a clean not-in-entry-codes error. -/
theorem C10_amended_null_handling (a : Attribute) :
    (a.attribute_type = none → a.entry_codes = none →
      validate_attribute a (some Value.null) = some [])
    ∧ Value.null.isArray = false
    ∧ Value.null.isObject = false
    ∧ (∀ k, a.attribute_type = some (NestedAttrType.Value k) →
        (typeCheckErrors a Value.null).length = 1)
    ∧ (∀ codes, a.entry_codes = some (EntryCodes.Array codes) →
        validate_attribute a (some Value.null) = none)
    ∧ (∀ g gs, a.entry_codes = some (EntryCodes.Object (g :: gs)) →
        validate_attribute a (some Value.null) = none)
    ∧ (a.entry_codes = some (EntryCodes.Object []) → a.attribute_type = none →
        validate_attribute a (some Value.null) =
          some [notInEntryCodesMsg a Value.null]) := by
  refine ⟨?_, rfl, rfl, ?_, ?_, ?_, ?_⟩
  · intro h1 h2
    simp [validate_attribute, typeCheckErrors, entryCodeCheckErrors, h1, h2,
      Value.isArray, Value.isObject]
  · intro k hk
    rw [typeCheckErrors_length]
    cases k <;> simp [typeViolated, hk, scalarKindOk, Value.isString,
      Value.isNumber, Value.isBoolean]
  · intro codes hc
    simp [validate_attribute, entryCodeCheckErrors, hc, Value.asStr,
      Value.isArray, Value.isObject]
  · intro g gs hc
    simp [validate_attribute, entryCodeCheckErrors, groupsAnyContains, hc,
      Value.asStr, Value.isArray, Value.isObject]
  · intro h1 h2
    simp [validate_attribute, typeCheckErrors, entryCodeCheckErrors,
      groupsAnyContains, h1, h2, Value.isArray, Value.isObject]

/-- Witness for the amended statement of C10: null under a Mandatory
unconstrained attribute yields zero errors (treated as present), and null
under a flat entry-code constraint aborts the call. -/
theorem C10_amended_null_handling_witness :
    validate_attribute ⟨"a", none, some "M", none⟩ (some Value.null) = some []
    ∧ validate_attribute ⟨"color", none, none, some (EntryCodes.Array ["red"])⟩
        (some Value.null) = none := by
  constructor
  · exact (C10_amended_null_handling ⟨"a", none, some "M", none⟩).1 rfl rfl
  · exact (C10_amended_null_handling
      ⟨"color", none, none, some (EntryCodes.Array ["red"])⟩).2.2.2.2.1
      ["red"] rfl

end OcaSdk

namespace OcaSdk

/-- Unfolding: a panicking head attribute aborts the loop. -/
lemma validateAll_cons_none (x : Attribute) (l : List Attribute) (data : Value)
    (hfx : validate_attribute x (data.get x.name) = none) :
    validateAll (x :: l) data = none := by
  simp [validateAll, hfx]

/-- Unfolding: a normal head and a normal tail concatenate their errors. -/
lemma validateAll_cons_some (x : Attribute) (l : List Attribute) (data : Value)
    (ex el : List String)
    (hfx : validate_attribute x (data.get x.name) = some ex)
    (hl : validateAll l data = some el) :
    validateAll (x :: l) data = some (ex ++ el) := by
  simp [validateAll, hfx, hl]

/-- Unfolding: a normal head with a panicking tail aborts the loop. -/
lemma validateAll_cons_some_none (x : Attribute) (l : List Attribute)
    (data : Value) (ex : List String)
    (hfx : validate_attribute x (data.get x.name) = some ex)
    (hl : validateAll l data = none) :
    validateAll (x :: l) data = none := by
  simp [validateAll, hfx, hl]

/-- The attribute loop aborts exactly when some attribute of the table
panics — a property of the attribute set, independent of iteration
order. -/
lemma validateAll_eq_none_iff (attrs : List Attribute) (data : Value) :
    validateAll attrs data = none ↔
      ∃ a ∈ attrs, validate_attribute a (data.get a.name) = none := by
  induction attrs with
  | nil => simp [validateAll]
  | cons x l ih =>
    cases hfx : validate_attribute x (data.get x.name) with
    | none =>
      rw [validateAll_cons_none x l data hfx]
      exact ⟨fun _ => ⟨x, List.mem_cons_self x l, hfx⟩, fun _ => rfl⟩
    | some ex =>
      cases h1 : validateAll l data with
      | none =>
        rw [validateAll_cons_some_none x l data ex hfx h1]
        constructor
        · intro _
          obtain ⟨a, ha, hfa⟩ := ih.mp h1
          exact ⟨a, List.mem_cons_of_mem x ha, hfa⟩
        · intro _
          rfl
      | some e1 =>
        rw [validateAll_cons_some x l data ex e1 hfx h1]
        constructor
        · intro hcon
          exact absurd hcon (by simp)
        · rintro ⟨a, ha, hfa⟩
          rcases List.mem_cons.mp ha with rfl | hal
          · rw [hfx] at hfa
            exact Option.noConfusion hfa
          · have hl := ih.mpr ⟨a, hal, hfa⟩
            rw [h1] at hl
            exact Option.noConfusion hl

/-- When no attribute panics, the loop returns the concatenation of the
per-attribute error blocks in iteration order. -/
lemma validateAll_eq_join (attrs : List Attribute) (data : Value)
    (h : ∀ a ∈ attrs, validate_attribute a (data.get a.name) ≠ none) :
    validateAll attrs data =
      some (attrs.map fun a =>
        (validate_attribute a (data.get a.name)).getD []).flatten := by
  induction attrs with
  | nil => simp [validateAll]
  | cons x l ih =>
    have hx := h x (List.mem_cons_self x l)
    cases hfx : validate_attribute x (data.get x.name) with
    | none => exact absurd hfx hx
    | some ex =>
      have hl := ih fun a ha => h a (List.mem_cons_of_mem x ha)
      rw [validateAll_cons_some x l data ex _ hfx hl]
      simp [hfx]

/-- Two iteration orders of the same attribute table that both finish
normally produce permutationally-equal error sequences: each attribute
contributes its own block, and reordering the attributes reorders the
blocks. -/
lemma validateAll_perm_of_perm (data : Value) {l1 l2 : List Attribute}
    (hp : List.Perm l1 l2) (e1 e2 : List String)
    (h1 : validateAll l1 data = some e1) (h2 : validateAll l2 data = some e2) :
    List.Perm e1 e2 := by
  have hn1 : ∀ a ∈ l1, validate_attribute a (data.get a.name) ≠ none := by
    intro a ha hfa
    have hnone := (validateAll_eq_none_iff l1 data).mpr ⟨a, ha, hfa⟩
    rw [hnone] at h1
    exact Option.noConfusion h1
  have hn2 : ∀ a ∈ l2, validate_attribute a (data.get a.name) ≠ none := by
    intro a ha hfa
    have hnone := (validateAll_eq_none_iff l2 data).mpr ⟨a, ha, hfa⟩
    rw [hnone] at h2
    exact Option.noConfusion h2
  rw [validateAll_eq_join l1 data hn1] at h1
  rw [validateAll_eq_join l2 data hn2] at h2
  rw [← Option.some.inj h1, ← Option.some.inj h2]
  exact (hp.map fun a => (validate_attribute a (data.get a.name)).getD []).flatten

/-- Reordering the attribute table does not change whether the loop
aborts. -/
lemma validateAll_none_iff_of_perm (data : Value) {l1 l2 : List Attribute}
    (hp : List.Perm l1 l2) :
    validateAll l1 data = none ↔ validateAll l2 data = none := by
  rw [validateAll_eq_none_iff, validateAll_eq_none_iff]
  constructor
  · rintro ⟨a, ha, hfa⟩
    exact ⟨a, hp.mem_iff.mp ha, hfa⟩
  · rintro ⟨a, ha, hfa⟩
    exact ⟨a, hp.mem_iff.mpr ha, hfa⟩

/-- Reordering the attribute table does not change whether the loop ends
with zero errors. -/
lemma validateAll_nil_iff_of_perm (data : Value) {l1 l2 : List Attribute}
    (hp : List.Perm l1 l2) :
    validateAll l1 data = some [] ↔ validateAll l2 data = some [] := by
  constructor
  · intro h1
    cases h2 : validateAll l2 data with
    | none =>
      have hn := (validateAll_none_iff_of_perm data hp).mpr h2
      rw [hn] at h1
      exact absurd h1 (by simp)
    | some e2 =>
      have hpe := validateAll_perm_of_perm data hp [] e2 h1 h2
      have he2 : e2 = [] := hpe.symm.eq_nil
      rw [he2]
  · intro h2
    cases h1 : validateAll l1 data with
    | none =>
      have hn := (validateAll_none_iff_of_perm data hp).mp h1
      rw [hn] at h2
      exact absurd h2 (by simp)
    | some e1 =>
      have hpe := validateAll_perm_of_perm data hp e1 [] h1 h2
      have he1 : e1 = [] := hpe.eq_nil
      rw [he1]

end OcaSdk

namespace OcaSdk

/-- `validate_data` aborts exactly when the data is an object and the
attribute loop panics. -/
lemma validate_data_eq_none_iff (attrs : List Attribute) (data : Value) :
    validate_data attrs data = none ↔
      (data.isObject = true ∧ validateAll attrs data = none) := by
  constructor
  · intro h
    by_cases ho : data.isObject = false
    · simp [validate_data, ho] at h
    · rw [Bool.not_eq_false] at ho
      refine ⟨ho, ?_⟩
      cases hv : validateAll attrs data with
      | none => rfl
      | some errors =>
        rw [validate_data_eq_of_validateAll attrs data errors ho hv] at h
        by_cases hne : errors.isEmpty = true
        · rw [if_pos hne] at h
          exact absurd h (by simp)
        · rw [if_neg hne] at h
          exact absurd h (by simp)
  · rintro ⟨ho, hv⟩
    exact validate_data_eq_none_of_validateAll_none attrs data ho hv

/-- `validate_data` returns `Err` exactly on non-object data, with the
fixed setup message. -/
lemma validate_data_error_iff (attrs : List Attribute) (data : Value)
    (e : String) :
    validate_data attrs data = some (Except.error e) ↔
      (data.isObject = false ∧ e = "Data is not an object") := by
  constructor
  · exact validate_data_error_elim attrs data e
  · rintro ⟨ho, he⟩
    subst he
    simp [validate_data, ho]

/-- `validate_data` returns `Valid` exactly when the data is an object and
the attribute loop finishes with zero errors. -/
lemma validate_data_valid_iff (attrs : List Attribute) (data : Value) :
    validate_data attrs data = some (Except.ok DataValidationStatus.Valid) ↔
      (data.isObject = true ∧ validateAll attrs data = some []) := by
  constructor
  · exact validate_data_valid_elim attrs data
  · rintro ⟨ho, hv⟩
    rw [validate_data_eq_of_validateAll attrs data [] ho hv]
    simp

/-- An `Invalid` outcome of `validate_data` carries exactly the error list
of the attribute loop, on object data. -/
lemma validate_data_invalid_elim (attrs : List Attribute) (data : Value)
    (e : List String)
    (h : validate_data attrs data =
      some (Except.ok (DataValidationStatus.Invalid e))) :
    data.isObject = true ∧ validateAll attrs data = some e := by
  by_cases ho : data.isObject = false
  · simp [validate_data, ho] at h
  · rw [Bool.not_eq_false] at ho
    refine ⟨ho, ?_⟩
    cases hv : validateAll attrs data with
    | none =>
      rw [validate_data_eq_none_of_validateAll_none attrs data ho hv] at h
      exact absurd h (by simp)
    | some errors =>
      rw [validate_data_eq_of_validateAll attrs data errors ho hv] at h
      by_cases hne : errors.isEmpty = true
      · rw [if_pos hne] at h
        simp at h
      · rw [if_neg hne] at h
        simp at h
        rw [h]

/-- The text entry point aborts on parsed object data exactly when the
attribute loop panics. -/
lemma validate_ok_eq_none_iff (attrs : List Attribute) (d : Value) :
    validate attrs (Except.ok d) = none ↔
      (d.isObject = true ∧ validateAll attrs d = none) := by
  constructor
  · intro h
    by_cases ho : d.isObject = false
    · simp [validate, ho] at h
    · rw [Bool.not_eq_false] at ho
      refine ⟨ho, ?_⟩
      cases hv : validateAll attrs d with
      | none => rfl
      | some errors =>
        have he : validate attrs (Except.ok d) = some (Except.ok errors) := by
          simp [validate, ho, hv]
        rw [he] at h
        exact absurd h (by simp)
  · rintro ⟨ho, hv⟩
    simp [validate, ho, hv]

/-- The text entry point returns `Err` on parsed data exactly when the
document is not an object, with the fixed setup message. -/
lemma validate_ok_error_iff (attrs : List Attribute) (d : Value)
    (e : String) :
    validate attrs (Except.ok d) = some (Except.error e) ↔
      (d.isObject = false ∧ e = "Data is not an object") := by
  constructor
  · intro h
    by_cases ho : d.isObject = false
    · refine ⟨ho, ?_⟩
      simp [validate, ho] at h
      exact h.symm
    · rw [Bool.not_eq_false] at ho
      cases hv : validateAll attrs d with
      | none =>
        have hn : validate attrs (Except.ok d) = none := by
          simp [validate, ho, hv]
        rw [hn] at h
        exact absurd h (by simp)
      | some errors =>
        have he : validate attrs (Except.ok d) = some (Except.ok errors) := by
          simp [validate, ho, hv]
        rw [he] at h
        simp at h
  · rintro ⟨ho, he⟩
    subst he
    simp [validate, ho]

/-- An `Ok` outcome of the text entry point carries exactly the error list
of the attribute loop, on parsed object data. -/
lemma validate_ok_eq_iff (attrs : List Attribute) (d : Value)
    (errs : List String) :
    validate attrs (Except.ok d) = some (Except.ok errs) ↔
      (d.isObject = true ∧ validateAll attrs d = some errs) := by
  constructor
  · intro h
    by_cases ho : d.isObject = false
    · simp [validate, ho] at h
    · rw [Bool.not_eq_false] at ho
      refine ⟨ho, ?_⟩
      cases hv : validateAll attrs d with
      | none =>
        have hn : validate attrs (Except.ok d) = none := by
          simp [validate, ho, hv]
        rw [hn] at h
        exact absurd h (by simp)
      | some errors =>
        have he : validate attrs (Except.ok d) = some (Except.ok errors) := by
          simp [validate, ho, hv]
        rw [he] at h
        simp at h
        rw [h]
  · rintro ⟨ho, hv⟩
    simp [validate, ho, hv]

end OcaSdk

namespace OcaSdk

/-- Claim C9 counterexample: two iteration orders of the SAME attribute
table (the permutation conjunct) applied to the same data return
different error sequences.  The program rebuilds the name-keyed attribute
map on every call and its iteration order is not fixed by the bundle, so
two calls on identical, unmodified inputs are not guaranteed the same
error sequence. -/
theorem C9_counterexample_order_dependent :
    List.Perm
      [(⟨"a", some (NestedAttrType.Value AttributeType.Text), none, none⟩ : Attribute),
        ⟨"b", some (NestedAttrType.Value AttributeType.Boolean), none, none⟩]
      [⟨"b", some (NestedAttrType.Value AttributeType.Boolean), none, none⟩,
        ⟨"a", some (NestedAttrType.Value AttributeType.Text), none, none⟩]
    ∧ validate_data
        [⟨"a", some (NestedAttrType.Value AttributeType.Text), none, none⟩,
          ⟨"b", some (NestedAttrType.Value AttributeType.Boolean), none, none⟩]
        (Value.object [("a", Value.number 1), ("b", Value.number 2)]) =
      some (Except.ok (DataValidationStatus.Invalid
        [notAStringMsg
            ⟨"a", some (NestedAttrType.Value AttributeType.Text), none, none⟩
            (Value.number 1),
          notABooleanMsg
            ⟨"b", some (NestedAttrType.Value AttributeType.Boolean), none, none⟩
            (Value.number 2)]))
    ∧ validate_data
        [⟨"b", some (NestedAttrType.Value AttributeType.Boolean), none, none⟩,
          ⟨"a", some (NestedAttrType.Value AttributeType.Text), none, none⟩]
        (Value.object [("a", Value.number 1), ("b", Value.number 2)]) =
      some (Except.ok (DataValidationStatus.Invalid
        [notABooleanMsg
            ⟨"b", some (NestedAttrType.Value AttributeType.Boolean), none, none⟩
            (Value.number 2),
          notAStringMsg
            ⟨"a", some (NestedAttrType.Value AttributeType.Text), none, none⟩
            (Value.number 1)]))
    ∧ [notAStringMsg
          ⟨"a", some (NestedAttrType.Value AttributeType.Text), none, none⟩
          (Value.number 1),
        notABooleanMsg
          ⟨"b", some (NestedAttrType.Value AttributeType.Boolean), none, none⟩
          (Value.number 2)] ≠
      [notABooleanMsg
          ⟨"b", some (NestedAttrType.Value AttributeType.Boolean), none, none⟩
          (Value.number 2),
        notAStringMsg
          ⟨"a", some (NestedAttrType.Value AttributeType.Text), none, none⟩
          (Value.number 1)] :=
  ⟨List.Perm.swap _ _ _, rfl, rfl, by decide⟩

/-- C9 amended: two validation runs on the same attribute table and the
same data agree up to the hidden per-call iteration order of the rebuilt
attribute map.  Modelling the two orders as permuted attribute lists, the
runs agree on aborting, on any setup error, and on the Valid status, and
their error sequences are permutations of each other; when the two
rebuilds happen to iterate in the same order, the results are
identical. -/
theorem C9_results_agree_up_to_iteration_order
    (attrs1 attrs2 : List Attribute) (data : Value)
    (parsed : Except String Value) (hperm : List.Perm attrs1 attrs2) :
    (validate_data attrs1 data = none ↔ validate_data attrs2 data = none)
    ∧ (∀ e, validate_data attrs1 data = some (Except.error e) ↔
        validate_data attrs2 data = some (Except.error e))
    ∧ (validate_data attrs1 data = some (Except.ok DataValidationStatus.Valid) ↔
        validate_data attrs2 data = some (Except.ok DataValidationStatus.Valid))
    ∧ (∀ e1 e2,
        validate_data attrs1 data =
          some (Except.ok (DataValidationStatus.Invalid e1)) →
        validate_data attrs2 data =
          some (Except.ok (DataValidationStatus.Invalid e2)) →
        List.Perm e1 e2)
    ∧ (∀ e, validate attrs1 (Except.error e) = validate attrs2 (Except.error e))
    ∧ (∀ d, validate attrs1 (Except.ok d) = none ↔
        validate attrs2 (Except.ok d) = none)
    ∧ (∀ d e, validate attrs1 (Except.ok d) = some (Except.error e) ↔
        validate attrs2 (Except.ok d) = some (Except.error e))
    ∧ (∀ d e1 e2, validate attrs1 (Except.ok d) = some (Except.ok e1) →
        validate attrs2 (Except.ok d) = some (Except.ok e2) →
        List.Perm e1 e2)
    ∧ (attrs1 = attrs2 →
        validate_data attrs1 data = validate_data attrs2 data
        ∧ validate attrs1 parsed = validate attrs2 parsed) := by
  refine ⟨?_, ?_, ?_, ?_, ?_, ?_, ?_, ?_, ?_⟩
  · rw [validate_data_eq_none_iff, validate_data_eq_none_iff]
    exact and_congr_right fun _ => validateAll_none_iff_of_perm data hperm
  · intro e
    rw [validate_data_error_iff, validate_data_error_iff]
  · rw [validate_data_valid_iff, validate_data_valid_iff]
    exact and_congr_right fun _ => validateAll_nil_iff_of_perm data hperm
  · intro e1 e2 h1 h2
    obtain ⟨_, hv1⟩ := validate_data_invalid_elim attrs1 data e1 h1
    obtain ⟨_, hv2⟩ := validate_data_invalid_elim attrs2 data e2 h2
    exact validateAll_perm_of_perm data hperm e1 e2 hv1 hv2
  · intro e
    rfl
  · intro d
    rw [validate_ok_eq_none_iff, validate_ok_eq_none_iff]
    exact and_congr_right fun _ => validateAll_none_iff_of_perm d hperm
  · intro d e
    rw [validate_ok_error_iff, validate_ok_error_iff]
  · intro d e1 e2 h1 h2
    obtain ⟨_, hv1⟩ := (validate_ok_eq_iff attrs1 d e1).mp h1
    obtain ⟨_, hv2⟩ := (validate_ok_eq_iff attrs2 d e2).mp h2
    exact validateAll_perm_of_perm d hperm e1 e2 hv1 hv2
  · intro heq
    subst heq
    exact ⟨rfl, rfl⟩

/-- Witness for the amended C9 at the two-attribute swap instance: both
iteration orders return Invalid, and the amended theorem yields the
permutation of the two concrete error sequences. -/
theorem C9_results_agree_up_to_iteration_order_witness :
    List.Perm
      [notAStringMsg
          ⟨"a", some (NestedAttrType.Value AttributeType.Text), none, none⟩
          (Value.number 1),
        notABooleanMsg
          ⟨"b", some (NestedAttrType.Value AttributeType.Boolean), none, none⟩
          (Value.number 2)]
      [notABooleanMsg
          ⟨"b", some (NestedAttrType.Value AttributeType.Boolean), none, none⟩
          (Value.number 2),
        notAStringMsg
          ⟨"a", some (NestedAttrType.Value AttributeType.Text), none, none⟩
          (Value.number 1)] :=
  (C9_results_agree_up_to_iteration_order
    [⟨"a", some (NestedAttrType.Value AttributeType.Text), none, none⟩,
      ⟨"b", some (NestedAttrType.Value AttributeType.Boolean), none, none⟩]
    [⟨"b", some (NestedAttrType.Value AttributeType.Boolean), none, none⟩,
      ⟨"a", some (NestedAttrType.Value AttributeType.Text), none, none⟩]
    (Value.object [("a", Value.number 1), ("b", Value.number 2)])
    (Except.ok (Value.object []))
    (List.Perm.swap _ _ _)).2.2.2.1
    [notAStringMsg
        ⟨"a", some (NestedAttrType.Value AttributeType.Text), none, none⟩
        (Value.number 1),
      notABooleanMsg
        ⟨"b", some (NestedAttrType.Value AttributeType.Boolean), none, none⟩
        (Value.number 2)]
    [notABooleanMsg
        ⟨"b", some (NestedAttrType.Value AttributeType.Boolean), none, none⟩
        (Value.number 2),
      notAStringMsg
        ⟨"a", some (NestedAttrType.Value AttributeType.Text), none, none⟩
        (Value.number 1)]
    rfl rfl

end OcaSdk
